import Mathlib

/-!
# Verification of the forma-multiplayer coordination layer

Shallow embedding, in Lean 4, of the signaling-and-coordination logic of
`src/src/app.tsx` (the current iteration of the extension): the shared
versioned document, the heartbeat compaction of the client list, the store
client (`refreshState` / `writeSharedState`), the leader's offer
reconciliation and `startPresent` action, the follower's offer handling
effect, the broadcast send-decision, the data-channel message handlers,
and the session-wide answered-clients record.

Timestamps (`Date.now()` / `performance.now()`) are modelled as integers,
client identifiers and serialized session descriptions as strings, and the
camera pose / selection payloads as concrete structurally-comparable data
(the code compares them only with deep structural equality).
-/

namespace FormaMultiplayer

/-- The compiled-in schema version (`const storageSchemaVersion = 8`). -/
def storageSchemaVersion : Nat := 8

/-- A signaling envelope: an offer or answer entry
`{ value, targetClientId }` in a client record. -/
structure Envelope where
  value : String
  targetClientId : String
deriving DecidableEq

/-- One entry of `SharedState.clients`. -/
structure ClientRec where
  id : String
  lastSeen : Int
  name : String
  offers : List Envelope
  answers : List Envelope
deriving DecidableEq

/-- The shared versioned document (`type SharedState`). -/
structure SharedState where
  schemaVersion : Nat
  clients : List ClientRec
  leaderClientId : Option String
deriving DecidableEq

/-- Model of `createBlankState()`. -/
def createBlankState : SharedState :=
  { schemaVersion := storageSchemaVersion, clients := [], leaderClientId := none }

/-- Model of `getState()`: the cached document, or a blank one when the cache is empty. -/
def getState (cache : Option SharedState) : SharedState :=
  cache.getD createBlankState

/-- Shape of a `Partial<SharedState>` spread onto a document (fields absent from the
partial object keep the document's value). -/
structure SharedStatePatch where
  schemaVersion? : Option Nat := none
  clients? : Option (List ClientRec) := none
  leaderClientId? : Option (Option String) := none

/-- Spread `\x7b ...s, ...p \x7d` for a document `s` and a partial document `p`. -/
def applyPatch (s : SharedState) (p : SharedStatePatch) : SharedState :=
  { schemaVersion := p.schemaVersion?.getD s.schemaVersion
    clients := p.clients?.getD s.clients
    leaderClientId := p.leaderClientId?.getD s.leaderClientId }

/-- Shape of a `Partial<SharedState["clients"][0]>` as used by `updateClientState`
(the call sites patch only `name`, `offers` or `answers`). -/
structure ClientPatch where
  name? : Option String := none
  offers? : Option (List Envelope) := none
  answers? : Option (List Envelope) := none

/-- The record merge performed by `updateClientState`:
`{ ...clientState.value, ...updated, lastSeen: Date.now() }`. -/
def updateClientState (c : ClientRec) (p : ClientPatch) (now : Int) : ClientRec :=
  { id := c.id
    lastSeen := now
    name := p.name?.getD c.name
    offers := p.offers?.getD c.offers
    answers := p.answers?.getD c.answers }

/-- The leader's offer publication (`addClientsForLeader`):
`updateClientState({ ...clientState.value, offers: [...clientState.value.offers, ...offers] })`. -/
def publishOffers (c : ClientRec) (newOffers : List Envelope) (now : Int) : ClientRec :=
  updateClientState c { offers? := some (c.offers ++ newOffers) } now

/-- The follower's answer publication (`createReceiverConnection`'s
`onicecandidate` handler): `updateClientState({ answers: [env] })`. -/
def publishAnswer (c : ClientRec) (env : Envelope) (now : Int) : ClientRec :=
  updateClientState c { answers? := some [env] } now

/-- Model of `getOtherClients(state)`: drop the local client and every record whose
`lastSeen` is older than the 20 s freshness window. -/
def getOtherClients (clients : List ClientRec) (selfId : String) (now : Int) : List ClientRec :=
  clients.filter fun c => decide (c.id ≠ selfId) && decide (now - 20000 ≤ c.lastSeen)

/-- Lexicographic code-point comparison of character lists, the model of the
string comparison performed by the sort comparator
`(a, b) => a.id.localeCompare(b.id)`. -/
def charListLe : List Char → List Char → Bool
  | [], _ => true
  | _ :: _, [] => false
  | a :: as, b :: bs =>
    if a.toNat < b.toNat then true
    else if b.toNat < a.toNat then false
    else charListLe as bs

/-- String comparison derived from `charListLe`. -/
def strLe (a b : String) : Bool := charListLe a.data b.data

theorem charListLe_total : ∀ as bs : List Char, charListLe as bs = true ∨ charListLe bs as = true := by
  intro as
  induction as with
  | nil => intro bs; left; rfl
  | cons a as ih =>
    intro bs
    cases bs with
    | nil => right; rfl
    | cons b bs =>
      by_cases h1 : a.toNat < b.toNat
      · left; simp [charListLe, h1]
      · by_cases h2 : b.toNat < a.toNat
        · right; simp [charListLe, h2]
        · rcases ih bs with h | h
          · left; simp [charListLe, h1, h2, h]
          · right; simp [charListLe, h1, h2, h]

theorem charListLe_trans :
    ∀ as bs cs : List Char, charListLe as bs = true → charListLe bs cs = true →
      charListLe as cs = true := by
  intro as
  induction as with
  | nil => intro bs cs _ _; rfl
  | cons a as ih =>
    intro bs cs h1 h2
    cases bs with
    | nil => simp [charListLe] at h1
    | cons b bs =>
      cases cs with
      | nil => simp [charListLe] at h2
      | cons c cs =>
        by_cases hab : a.toNat < b.toNat
        · by_cases hbc : b.toNat < c.toNat
          · simp [charListLe, Nat.lt_trans hab hbc]
          · by_cases hcb : c.toNat < b.toNat
            · simp [charListLe, hbc, hcb] at h2
            · have hbc' : b.toNat = c.toNat := Nat.le_antisymm (Nat.le_of_not_lt hcb) (Nat.le_of_not_lt hbc)
              simp [charListLe, hbc' ▸ hab]
        · by_cases hba : b.toNat < a.toNat
          · simp [charListLe, hab, hba] at h1
          · have hab' : a.toNat = b.toNat := Nat.le_antisymm (Nat.le_of_not_lt hba) (Nat.le_of_not_lt hab)
            by_cases hbc : b.toNat < c.toNat
            · simp [charListLe, hab' ▸ hbc]
            · by_cases hcb : c.toNat < b.toNat
              · simp [charListLe, hbc, hcb] at h2
              · have hbc' : b.toNat = c.toNat := Nat.le_antisymm (Nat.le_of_not_lt hcb) (Nat.le_of_not_lt hbc)
                have hac : a.toNat = c.toNat := hab'.trans hbc'
                simp only [charListLe, hab, hba, if_false] at h1
                simp only [charListLe, hbc, hcb, if_false] at h2
                have hnac : ¬ a.toNat < c.toNat := by omega
                have hnca : ¬ c.toNat < a.toNat := by omega
                simp [charListLe, hnac, hnca, ih bs cs h1 h2]

theorem charListLe_antisymm :
    ∀ as bs : List Char, charListLe as bs = true → charListLe bs as = true → as = bs := by
  intro as
  induction as with
  | nil =>
    intro bs _ h2
    cases bs with
    | nil => rfl
    | cons b bs => simp [charListLe] at h2
  | cons a as ih =>
    intro bs h1 h2
    cases bs with
    | nil => simp [charListLe] at h1
    | cons b bs =>
      by_cases hab : a.toNat < b.toNat
      · have : ¬ b.toNat < a.toNat := by omega
        simp [charListLe, this, hab] at h2
      · by_cases hba : b.toNat < a.toNat
        · simp [charListLe, hab, hba] at h1
        · have hab' : a.toNat = b.toNat := Nat.le_antisymm (Nat.le_of_not_lt hba) (Nat.le_of_not_lt hab)
          have hc : a = b := by
            have : a.val.toNat = b.val.toNat := hab'
            have hv : a.val = b.val := by
              apply UInt32.toNat.inj
              exact this
            exact Char.ext hv
          simp only [charListLe, hab, hba, if_false] at h1 h2
          rw [hc, ih bs h1 h2]

theorem strLe_total (a b : String) : strLe a b = true ∨ strLe b a = true :=
  charListLe_total a.data b.data

theorem strLe_trans {a b c : String} (h1 : strLe a b = true) (h2 : strLe b c = true) :
    strLe a c = true :=
  charListLe_trans a.data b.data c.data h1 h2

theorem strLe_antisymm {a b : String} (h1 : strLe a b = true) (h2 : strLe b a = true) : a = b := by
  cases a with
  | mk da =>
    cases b with
    | mk db => exact congrArg String.mk (charListLe_antisymm da db h1 h2)

/-- The comparator `(a, b) => a.id.localeCompare(b.id)` as a sort order on
client records. -/
def recLe (a b : ClientRec) : Prop := strLe a.id b.id = true

/-- Strict version of `recLe`: less-or-equal with distinct ids. Sorted
duplicate-free client lists are sorted for this relation. -/
def recLt (a b : ClientRec) : Prop := recLe a b ∧ a.id ≠ b.id

instance : DecidableRel recLe := fun a b => inferInstanceAs (Decidable (strLe a.id b.id = true))

instance : DecidableRel recLt := fun a b => inferInstanceAs (Decidable (recLe a b ∧ a.id ≠ b.id))

instance : IsTotal ClientRec recLe := ⟨fun a b => strLe_total a.id b.id⟩

instance : IsTrans ClientRec recLe := ⟨fun _ _ _ h h' => strLe_trans h h'⟩

instance : IsAntisymm ClientRec recLt :=
  ⟨fun _ _ h h' => absurd (strLe_antisymm h.1 h'.1) h.2⟩

/-- The client-list compaction performed on every write:
`[...getOtherClients(state), selfRec].sort((a, b) => a.id.localeCompare(b.id))`
(JS `Array.prototype.sort` is stable; we model it with the stable
`List.insertionSort`). -/
def compactStep (clients : List ClientRec) (selfRec : ClientRec) (now : Int) : List ClientRec :=
  List.insertionSort recLe (getOtherClients clients selfRec.id now ++ [selfRec])

example :
    compactStep [⟨"x", 0, "x", [], []⟩] ⟨"b", 0, "b", [], []⟩ 0 =
      [⟨"b", 0, "b", [], []⟩, ⟨"x", 0, "x", [], []⟩] := by decide

example : getOtherClients [⟨"x", -30000, "x", [], []⟩] "b" 0 = [] := by decide

/-- Outcome of one `getTextObject` fetch plus JSON decode, as observed by
`refreshState`: the transport may throw, `JSON.parse` may throw, the blob may
be absent, or a document is decoded. -/
inductive FetchOutcome where
  | transportError
  | decodeError
  | absent
  | doc (d : SharedState)
deriving DecidableEq

/-- The `storagePollingState` signal's values; `initial` models the
source's starting literal for the phase before the first poll. -/
inductive PollStatus where
  | initial
  | idle
  | loading
  | failed
deriving DecidableEq

/-- The `storageWriteState` signal's values. -/
inductive WriteStatus where
  | idle
  | writing
  | failed
deriving DecidableEq

/-- Model of `refreshState(override?)`. The result is the new cached
document, the final polling status, and whether an error escaped to the
caller (the `try/catch` swallows every failure, so the last component is
`false` on every path). -/
def refreshState (cache : Option SharedState) (override : Option SharedStatePatch)
    (fetch : FetchOutcome) : Option SharedState × PollStatus × Bool :=
  let cache1 : Option SharedState :=
    match override with
    | some o => some (applyPatch (getState cache) o)
    | none => cache
  match fetch with
  | .transportError => (cache1, .failed, false)
  | .decodeError => (cache1, .failed, false)
  | .absent => (cache1, .idle, false)
  | .doc d =>
    if d.schemaVersion = storageSchemaVersion then
      (some (match override with
             | some o => applyPatch d o
             | none => d), .idle, false)
    else
      (cache1, .idle, false)

/-- Outcome of one `setObject` store call. -/
inductive WriteOutcome where
  | ok
  | transportError
deriving DecidableEq

/-- Model of `writeSharedState(update?)`: `updateClientState()` restamps the
local record and compacts the cached document, the compaction runs once more
over the refreshed cache, the `update` patch is spread on top, and the store
call either succeeds or throws. The result is the new cached document, the
final write status, and whether the error was re-raised to the caller. -/
def writeSharedState (cache : Option SharedState) (selfRec : ClientRec) (now : Int)
    (update : SharedStatePatch) (outcome : WriteOutcome) :
    Option SharedState × WriteStatus × Bool :=
  let stamped := updateClientState selfRec {} now
  let s0 := getState cache
  let prev : SharedState := { s0 with clients := compactStep s0.clients stamped now }
  let written : SharedState :=
    applyPatch { prev with clients := compactStep prev.clients stamped now } update
  match outcome with
  | .ok => (some written, .idle, false)
  | .transportError => (some written, .failed, true)

/-- The peers targeted by the leader's document-driven offer reconciliation
effect: nothing unless this client is the leader; otherwise every client
other than self that has no offer addressed to it in the local record. -/
def leaderEffectTargets (selfId : String) (doc : SharedState) (ownOffers : List Envelope) :
    List ClientRec :=
  if doc.leaderClientId = some selfId then
    let existingOffersTo := ownOffers.map Envelope.targetClientId
    doc.clients.filter fun c => decide (c.id ≠ selfId) && !(decide (c.id ∈ existingOffersTo))
  else
    []

/-- The peers targeted by the user-triggered `startPresent` action: every
client other than self, with no further filtering. -/
def startPresentTargets (selfId : String) (doc : SharedState) : List ClientRec :=
  doc.clients.filter fun c => decide (c.id ≠ selfId)

/-- One run of the follower's offer-handling effect on a freshly read
document: locate the leader's record, then an offer addressed to self; bail
out when `connectedLeaderClientId` already equals that leader; otherwise
record the leader as connected and finalize the offer (create a receiver
connection and apply the remote description). The result is the new
`connectedLeaderClientId` and the finalized `(leaderId, offer)`, if any. -/
def followerStep (selfId : String) (connected : Option String) (doc : SharedState) :
    Option String × Option (String × Envelope) :=
  match doc.clients.find? (fun c => decide (doc.leaderClientId = some c.id)) with
  | none => (connected, none)
  | some leader =>
    match leader.offers.find? (fun o => decide (o.targetClientId = selfId)) with
    | none => (connected, none)
    | some offer =>
      if connected = some leader.id then (connected, none)
      else (some leader.id, some (leader.id, offer))

/-- Iterated `followerStep` over a sequence of document reads, collecting
every finalization in order. -/
def followerRun (selfId : String) (connected : Option String) :
    List SharedState → Option String × List (String × Envelope)
  | [] => (connected, [])
  | d :: rest =>
    let s := followerStep selfId connected d
    let r := followerRun selfId s.1 rest
    (r.1, s.2.toList ++ r.2)

/-- The last value sent by a broadcast loop together with its send time
(`lastSentCameraPosition` / `lastSentSelection`). -/
structure LastSent (α : Type) where
  value : α
  time : Int
deriving DecidableEq

/-- The send condition of one broadcast-loop iteration:
`lastSent == null || !equal(lastSent.value, v) || lastSent.time < now - 4000`. -/
def shouldSendSample {α : Type} [DecidableEq α] (last : Option (LastSent α)) (current : α)
    (now : Int) : Bool :=
  match last with
  | none => true
  | some l => !(decide (l.value = current)) || decide (l.time < now - 4000)

/-- One iteration of a broadcast loop: when the send condition holds, the
value is broadcast and `lastSent` is updated to the fresh sample and time;
otherwise nothing is sent. Returns the new `lastSent` and whether a message
was sent. -/
def sendingStep {α : Type} [DecidableEq α] (last : Option (LastSent α)) (current : α)
    (now : Int) : Option (LastSent α) × Bool :=
  if shouldSendSample last current now then (some ⟨current, now⟩, true) else (last, false)

/-- The camera pose sampled from the viewer, compared only by deep
structural equality (`fast-deep-equal`). -/
structure CameraPose where
  isPerspective : Bool
  position : Int × Int × Int
  target : Int × Int × Int
deriving DecidableEq

/-- One iteration of `startCameraPositionSending`. -/
def cameraSendingStep (last : Option (LastSent CameraPose)) (current : CameraPose) (now : Int) :
    Option (LastSent CameraPose) × Bool :=
  sendingStep last current now

/-- One iteration of `startSelectionSending` (a selection is a list of
path strings). -/
def selectionSendingStep (last : Option (LastSent (List String))) (current : List String)
    (now : Int) : Option (LastSent (List String)) × Bool :=
  sendingStep last current now

/-- Model of `data.charCodeAt(0)`: the code of the first character, with the
convention that an empty string yields 0 (`charCodeAt` yields `NaN` there,
which also fails the `== 2` comparison). -/
def firstCharCode (s : String) : Nat :=
  match s.data with
  | [] => 0
  | c :: _ => c.toNat

/-- What a data-channel message handler does with one raw inbound message. -/
inductive HandlerAction where
  | ignored
  | handled
  | parseError
deriving DecidableEq

/-- Result of a `JSON.parse` call: a parsed value (left opaque) or a thrown
`SyntaxError`. -/
inductive ParseResult where
  | ok
  | error
deriving DecidableEq

/-- A parse model is faithful to the JSON grammar on control messages:
no string whose first character is the reserved control marker U+0002
parses, because U+0002 is neither JSON insignificant whitespace nor a
character that can begin a JSON value. -/
def CtrlUnparsable (parse : String → ParseResult) : Prop :=
  ∀ s : String, firstCharCode s = 2 → parse s = .error

/-- A trivially grammar-respecting parse model used to instantiate closed
statements. -/
def jsonParseReject : String → ParseResult := fun _ => .error

/-- The presenter-side channel handler (`presenterDataChannel.onmessage`):
a message whose first char code is 2 is ignored before any parsing;
otherwise the payload is `JSON.parse`d and logged. -/
def presenterOnMessage (parse : String → ParseResult) (data : String) : HandlerAction :=
  if firstCharCode data = 2 then .ignored
  else
    match parse data with
    | .ok => .handled
    | .error => .parseError

/-- The follower-side channel handler installed in
`createReceiverConnection`'s `ondatachannel` (`dc2.onmessage`): the payload
is `JSON.parse`d unconditionally — there is no control-marker check — and a
successful parse is handed to the Message Router (`onMessage`). -/
def receiverOnMessage (parse : String → ParseResult) (data : String) : HandlerAction :=
  match parse data with
  | .ok => .handled
  | .error => .parseError

/-- The answer-watching effect installed by `createPresenterConnection` for
a given target peer: collect every answer addressed to self inside the
target's record, and for each one in order, skip it when the record's owner
is already in the session-wide `answeredClientIds` list, otherwise apply it
as the remote description and append the owner to `answeredClientIds`.
Returns the applied `(peerId, answer)` pairs and the updated list. -/
def answerEffectStep (selfId targetClientId : String) (doc : SharedState)
    (answered : List String) : List (String × Envelope) × List String :=
  let answers : List (String × Envelope) :=
    (doc.clients.filter fun c => decide (c.id = targetClientId)).flatMap fun c =>
      (c.answers.filter fun a => decide (a.targetClientId = selfId)).map fun a => (c.id, a)
  answers.foldl
    (fun acc ca => if ca.1 ∈ acc.2 then acc else (acc.1 ++ [ca], acc.2 ++ [ca.1]))
    ([], answered)

/-! ## Helper lemmas -/

theorem followerStep_spec (selfId : String) (c : Option String) (doc : SharedState) :
    ((followerStep selfId c doc).2 = none ∧ (followerStep selfId c doc).1 = c) ∨
    (∃ lid o, (followerStep selfId c doc).2 = some (lid, o) ∧
      (followerStep selfId c doc).1 = some lid ∧ c ≠ some lid) := by
  rcases hf : doc.clients.find? (fun x => decide (doc.leaderClientId = some x.id)) with _ | leader
  · left
    constructor <;> simp [followerStep, hf]
  · rcases ho : leader.offers.find? (fun o => decide (o.targetClientId = selfId)) with _ | offer
    · left
      constructor <;> simp [followerStep, hf, ho]
    · by_cases hc : c = some leader.id
      · left
        constructor <;> simp [followerStep, hf, ho, hc]
      · right
        refine ⟨leader.id, offer, ?_, ?_, hc⟩ <;> simp [followerStep, hf, ho, hc]

theorem followerRun_chain (selfId : String) :
    ∀ (docs : List SharedState) (c : Option String),
      List.Chain' (fun a b : String × Envelope => a.1 ≠ b.1) (followerRun selfId c docs).2 ∧
      (∀ p, (followerRun selfId c docs).2.head? = some p → c ≠ some p.1) := by
  intro docs
  induction docs with
  | nil =>
    intro c
    refine ⟨List.chain'_nil, ?_⟩
    intro p h
    simp [followerRun] at h
  | cons d rest ih =>
    intro c
    rcases followerStep_spec selfId c d with ⟨h2, h1⟩ | ⟨lid, o, h2, h1, hne⟩
    · have heq : followerRun selfId c (d :: rest) = followerRun selfId c rest := by
        simp [followerRun, h2, h1]
      rw [heq]
      exact ih c
    · have heq : (followerRun selfId c (d :: rest)).2 =
          (lid, o) :: (followerRun selfId (some lid) rest).2 := by
        simp [followerRun, h2, h1]
      refine ⟨?_, ?_⟩
      · rw [heq, List.chain'_cons']
        refine ⟨?_, (ih (some lid)).1⟩
        intro y hy h
        exact (ih (some lid)).2 y hy (congrArg some h)
      · intro p hp
        rw [heq] at hp
        simp only [List.head?_cons, Option.some.injEq] at hp
        subst hp
        exact hne

theorem sendingStep_sends_iff {α : Type} [DecidableEq α] (last : Option (LastSent α)) (v : α)
    (now : Int) :
    (sendingStep last v now).2 = true ↔
      (∀ l, last = some l → l.value ≠ v ∨ l.time < now - 4000) := by
  cases last with
  | none =>
    refine ⟨fun _ l h => absurd h (by simp), fun _ => rfl⟩
  | some l =>
    simp only [sendingStep, shouldSendSample]
    by_cases hv : l.value = v
    · by_cases ht : l.time < now - 4000
      · simp [hv, ht]
      · simp [hv, ht]
    · by_cases ht : l.time < now - 4000
      · simp [hv, ht]
      · simp [hv, ht]

theorem foldl_answer_skip :
    ∀ (L : List (String × Envelope)) (acc : List (String × Envelope) × List String),
      (∀ ca ∈ L, ca.1 ∈ acc.2) →
      L.foldl (fun acc ca => if ca.1 ∈ acc.2 then acc else (acc.1 ++ [ca], acc.2 ++ [ca.1])) acc
        = acc := by
  intro L
  induction L with
  | nil => intro acc _; rfl
  | cons ca L ih =>
    intro acc h
    have hca : ca.1 ∈ acc.2 := h ca (List.mem_cons_self ca L)
    simp only [List.foldl_cons, if_pos hca]
    exact ih acc fun x hx => h x (List.mem_cons_of_mem ca hx)

/-! ## Claims -/

/-- C1 counterexample: the follower's answer publication replaces the whole
`answers` list instead of accumulating. After publishing a first answer and
then a second one, the first envelope is gone from the client's record. -/
theorem claim_C1_counterexample :
    (⟨"sdpA1", "L"⟩ : Envelope) ∈
        (publishAnswer ⟨"f", 0, "f", [], []⟩ ⟨"sdpA1", "L"⟩ 1).answers ∧
    (⟨"sdpA1", "L"⟩ : Envelope) ∉
        (publishAnswer (publishAnswer ⟨"f", 0, "f", [], []⟩ ⟨"sdpA1", "L"⟩ 1)
          ⟨"sdpA2", "L"⟩ 2).answers := by
  decide

/-- C1 (amended): an offer publication appends the new envelopes to the
client's `offers` list and leaves `answers` untouched, so offers accumulate
across refreshes; an answer publication instead replaces the whole `answers`
list with the single new envelope (and leaves `offers` untouched), so only
the latest answer envelope is present. -/
theorem claim_C1 (c : ClientRec) (newOffers : List Envelope) (env : Envelope) (now : Int) :
    (publishOffers c newOffers now).offers = c.offers ++ newOffers ∧
    (publishOffers c newOffers now).answers = c.answers ∧
    (publishAnswer c env now).answers = [env] ∧
    (publishAnswer c env now).offers = c.offers :=
  ⟨rfl, rfl, rfl, rfl⟩

/-- C2 counterexample: with leader `"a"` holding an offer to peer `"b"` whose
answer has been applied (a `Connected` pair: the offer is recorded and `"b"`
is in the answered list), the user-triggered `startPresent` action still
targets `"b"`, opening a second presenter connection and publishing a second
offer to it. -/
theorem claim_C2_counterexample :
    (⟨"sdpB", "b"⟩ : Envelope) ∈
        (⟨"a", 0, "a", [⟨"sdpB", "b"⟩], []⟩ : ClientRec).offers ∧
    "b" ∈ (["b"] : List String) ∧
    (⟨"b", 0, "b", [], []⟩ : ClientRec) ∈
      startPresentTargets "a"
        ⟨8, [⟨"a", 0, "a", [⟨"sdpB", "b"⟩], []⟩, ⟨"b", 0, "b", [], []⟩], some "a"⟩ := by
  decide

/-- C2 (amended): only the document-driven offer reconciliation effect
avoids re-offering — it never targets a peer for which the leader's own
record already contains an offer (which covers every `Connected` pair,
and is the only in-flight tracking there is); the user-triggered
`startPresent` action performs no such filtering and re-offers every other
client. -/
theorem claim_C2 (selfId : String) (doc : SharedState) (ownOffers : List Envelope)
    (p : String) (e : Envelope) (he : e ∈ ownOffers) (ht : e.targetClientId = p) :
    ∀ c ∈ leaderEffectTargets selfId doc ownOffers, c.id ≠ p := by
  intro c hc
  rw [leaderEffectTargets] at hc
  split at hc
  · rw [List.mem_filter] at hc
    obtain ⟨-, hcond⟩ := hc
    rw [Bool.and_eq_true] at hcond
    obtain ⟨-, hnotin⟩ := hcond
    intro hid
    rw [Bool.not_eq_true', decide_eq_false_iff_not] at hnotin
    exact hnotin (hid ▸ ht ▸ List.mem_map_of_mem Envelope.targetClientId he)
  · exact absurd hc (List.not_mem_nil c)

/-- C2 witness: with an offer to `"b"` recorded, the effect's target list
over a document containing peers `"b"` and `"z"` contains only `"z"`, whose
id indeed differs from `"b"`. -/
theorem claim_C2_witness :
    (⟨"z", 0, "z", [], []⟩ : ClientRec).id ≠ "b" :=
  claim_C2 "a"
    ⟨8, [⟨"a", 0, "a", [⟨"sdpB", "b"⟩], []⟩, ⟨"b", 0, "b", [], []⟩, ⟨"z", 0, "z", [], []⟩],
      some "a"⟩
    [⟨"sdpB", "b"⟩] "b" ⟨"sdpB", "b"⟩ (by decide) rfl ⟨"z", 0, "z", [], []⟩ (by decide)

/-- C3 counterexample: when leadership moves from `"L"` (whose offer to the
follower gets finalized) to `"X"` (whose offer also gets finalized) and back
to `"L"` while the original offer is still present, the follower finalizes
the very same offer of `"L"` a second time: the run over the three document
reads contains two finalizations of `("L", offer)`. -/
theorem claim_C3_counterexample :
    ((followerRun "f" none
        [⟨8, [⟨"L", 0, "L", [⟨"offL", "f"⟩], []⟩, ⟨"X", 0, "X", [⟨"offX", "f"⟩], []⟩], some "L"⟩,
         ⟨8, [⟨"L", 0, "L", [⟨"offL", "f"⟩], []⟩, ⟨"X", 0, "X", [⟨"offX", "f"⟩], []⟩], some "X"⟩,
         ⟨8, [⟨"L", 0, "L", [⟨"offL", "f"⟩], []⟩, ⟨"X", 0, "X", [⟨"offX", "f"⟩], []⟩],
           some "L"⟩]).2.count
      ("L", ⟨"offL", "f"⟩)) = 2 := by
  decide

/-- C3 (amended): a follower never finalizes the same leader-addressed offer
twice while `connectedLeaderClientId` still equals that leader — in
particular, re-reading a document with an unchanged applicable offer
finalizes nothing. In any sequence of document reads, two consecutive
finalizations always name different leaders, so the same offer can only be
re-finalized after the follower has connected to a different leader in
between (which does happen when `leaderClientId` flips away and back). -/
theorem claim_C3 (selfId : String) (docs : List SharedState) (c : Option String) :
    List.Chain' (fun a b : String × Envelope => a.1 ≠ b.1) (followerRun selfId c docs).2 :=
  (followerRun_chain selfId docs c).1

/-- C4 counterexample: with the selection unchanged and exactly 4000 ms
elapsed since the last send (at least 4000 ms have elapsed), the loop does
not send — the code requires strictly more than 4000 ms. -/
theorem claim_C4_counterexample :
    (4000 : Int) - 0 ≥ 4000 ∧
    (selectionSendingStep (some ⟨([] : List String), 0⟩) [] 4000).2 = false := by
  decide

/-- C4 (amended): an iteration of the camera or selection broadcast loop
sends exactly when no value has ever been sent, or the freshly sampled value
differs (deep structural equality) from the last sent value, or strictly
more than 4000 ms have elapsed since the last send; in particular, while the
sampled value stays equal to the last sent value, no further message is sent
within 4000 ms of the last send. -/
theorem claim_C4 (lc : Option (LastSent CameraPose)) (cam : CameraPose)
    (ls : Option (LastSent (List String))) (sel : List String) (now : Int) :
    ((cameraSendingStep lc cam now).2 = true ↔
      (∀ l, lc = some l → l.value ≠ cam ∨ l.time < now - 4000)) ∧
    ((selectionSendingStep ls sel now).2 = true ↔
      (∀ l, ls = some l → l.value ≠ sel ∨ l.time < now - 4000)) ∧
    (∀ l, lc = some l → l.value = cam → now - l.time ≤ 4000 →
      (cameraSendingStep lc cam now).2 = false) ∧
    (∀ l, ls = some l → l.value = sel → now - l.time ≤ 4000 →
      (selectionSendingStep ls sel now).2 = false) := by
  refine ⟨sendingStep_sends_iff lc cam now, sendingStep_sends_iff ls sel now, ?_, ?_⟩
  · intro l hl hv ht
    rw [Bool.eq_false_iff]
    intro hsent
    rcases (sendingStep_sends_iff lc cam now).1 hsent l hl with h | h
    · exact h hv
    · omega
  · intro l hl hv ht
    rw [Bool.eq_false_iff]
    intro hsent
    rcases (sendingStep_sends_iff ls sel now).1 hsent l hl with h | h
    · exact h hv
    · omega

/-- C4 witness: on the very first iteration (nothing sent yet) both loops
send. -/
theorem claim_C4_witness :
    (cameraSendingStep none ⟨true, (0, 0, 0), (0, 0, 0)⟩ 0).2 = true :=
  ((claim_C4 none ⟨true, (0, 0, 0), (0, 0, 0)⟩ none [] 0).1).mpr fun _ h => nomatch h

/-- C5: reading a stored blob whose `schemaVersion` differs from the
compiled-in version leaves the cache and the polling status exactly as a
read that finds no blob at all — the payload is discarded as absence of
data, and the polling status ends `idle`, not `failed`. -/
theorem claim_C5 (cache : Option SharedState) (override : Option SharedStatePatch)
    (d : SharedState) (h : d.schemaVersion ≠ storageSchemaVersion) :
    refreshState cache override (.doc d) = refreshState cache override .absent := by
  simp [refreshState, h]

/-- C5 witness: a version-7 document behaves as a missing blob. -/
theorem claim_C5_witness :
    refreshState none none (.doc ⟨7, [], none⟩) = refreshState none none .absent ∧
    (⟨7, [], none⟩ : SharedState).schemaVersion ≠ storageSchemaVersion :=
  ⟨claim_C5 none none ⟨7, [], none⟩ (by decide), by decide⟩

/-- C9: the store client's error contract. A plain read (no override)
swallows both transport and JSON-decode failures: it never raises and leaves
the cached document unchanged (only the polling status turns `failed`). A
write hit by a transport failure marks the write status `failed` and
re-raises the error to its caller. -/
theorem claim_C9 :
    (∀ (cache : Option SharedState) (fetch : FetchOutcome),
        fetch = .transportError ∨ fetch = .decodeError →
          refreshState cache none fetch = (cache, .failed, false)) ∧
    (∀ (cache : Option SharedState) (selfRec : ClientRec) (now : Int)
        (update : SharedStatePatch),
        (writeSharedState cache selfRec now update .transportError).2.1 = .failed ∧
        (writeSharedState cache selfRec now update .transportError).2.2 = true) := by
  constructor
  · rintro cache fetch (rfl | rfl) <;> rfl
  · intro cache selfRec now update
    exact ⟨rfl, rfl⟩

/-- C9 witness: a transport failure on a plain read from an empty cache
leaves the cache empty, sets the polling status to failed and raises
nothing. -/
theorem claim_C9_witness :
    refreshState none none .transportError = (none, .failed, false) :=
  claim_C9.1 none .transportError (Or.inl rfl)

/-- C8 counterexample: the follower-side channel handler that feeds the
Message Router has no control-marker check — on a message whose first byte
is the reserved marker (char code 2) it does not take the ignore path but
attempts `JSON.parse` (which throws). -/
theorem claim_C8_counterexample :
    firstCharCode (String.mk [Char.ofNat 2]) = 2 ∧
    receiverOnMessage jsonParseReject (String.mk [Char.ofNat 2]) ≠ .ignored := by
  decide

/-- C8 (amended): only the presenter-side handler ignores a control-marker
message before attempting JSON parsing; the follower-side handler attempts
`JSON.parse` on every message, and on a control-marker message that parse
fails (U+0002 cannot begin a JSON document), so the message still never
reaches the Message Router — via a thrown parse error, not via the marker
check. -/
theorem claim_C8 (parse : String → ParseResult) (data : String)
    (hp : CtrlUnparsable parse) (hd : firstCharCode data = 2) :
    presenterOnMessage parse data = .ignored ∧
    receiverOnMessage parse data = .parseError := by
  constructor
  · simp [presenterOnMessage, hd]
  · simp [receiverOnMessage, hp data hd]

/-- C8 witness: both handler outcomes at the one-byte control message, under
the grammar-respecting parse model. -/
theorem claim_C8_witness :
    presenterOnMessage jsonParseReject (String.mk [Char.ofNat 2]) = .ignored ∧
    receiverOnMessage jsonParseReject (String.mk [Char.ofNat 2]) = .parseError :=
  claim_C8 jsonParseReject (String.mk [Char.ofNat 2]) (fun _ _ => rfl) (by decide)

/-- C10: the answered-clients record is session-wide and permanent. Once a
peer id is in `answeredClientIds`, any presenter connection's answer effect
for that peer — in particular one created later after re-offering the same
peer — skips every answer of that peer: it applies no remote description and
leaves the list unchanged, so the re-offered pair can never complete
signaling within the session. -/
theorem claim_C10 (selfId targetClientId : String) (doc : SharedState)
    (answered : List String) (h : targetClientId ∈ answered) :
    answerEffectStep selfId targetClientId doc answered = ([], answered) := by
  unfold answerEffectStep
  apply foldl_answer_skip
  intro ca hca
  rw [List.mem_flatMap] at hca
  obtain ⟨c, hc, hca⟩ := hca
  rw [List.mem_filter] at hc
  have hcid : c.id = targetClientId := of_decide_eq_true hc.2
  rw [List.mem_map] at hca
  obtain ⟨a, -, ha⟩ := hca
  have : ca.1 = c.id := by rw [← ha]
  rw [this, hcid]
  exact h

/-- C10 witness: with peer `"b"` already answered, a fresh run of the answer
effect over a document in which `"b"` has a pending answer for `"a"` applies
nothing and leaves the answered list unchanged. -/
theorem claim_C10_witness :
    answerEffectStep "a" "b" ⟨8, [⟨"b", 0, "b", [], [⟨"ans", "a"⟩]⟩], some "a"⟩ ["b"]
      = ([], ["b"]) :=
  claim_C10 "a" "b" ⟨8, [⟨"b", 0, "b", [], [⟨"ans", "a"⟩]⟩], some "a"⟩ ["b"] (by decide)

theorem mem_getOtherClients {clients : List ClientRec} {selfId : String} {now : Int}
    {c : ClientRec} :
    c ∈ getOtherClients clients selfId now ↔
      c ∈ clients ∧ c.id ≠ selfId ∧ now - 20000 ≤ c.lastSeen := by
  simp [getOtherClients, List.mem_filter, and_assoc]

theorem sorted_recLt_of_sorted_nodup {l : List ClientRec} (hs : l.Sorted recLe)
    (hn : (l.map ClientRec.id).Nodup) : l.Sorted recLt := by
  have hpw : l.Pairwise fun a b => a.id ≠ b.id := List.pairwise_map.1 hn
  exact (hs.and hpw).imp fun h => ⟨h.1, h.2⟩

theorem compact_input_perm :
    ∀ (l : List ClientRec) (selfRec : ClientRec) (now : Int),
      (∀ c ∈ l, now - 20000 ≤ c.lastSeen) →
      (l.map ClientRec.id).Nodup →
      selfRec ∈ l →
      List.Perm (getOtherClients l selfRec.id now ++ [selfRec]) l := by
  intro l
  induction l with
  | nil =>
    intro selfRec now _ _ hm
    exact absurd hm (List.not_mem_nil selfRec)
  | cons a t ih =>
    intro selfRec now hf hn hm
    rw [List.map_cons, List.nodup_cons] at hn
    obtain ⟨hna, hnt⟩ := hn
    rcases List.mem_cons.1 hm with rfl | hmt
    · have hids : ∀ c ∈ t, c.id ≠ selfRec.id := by
        intro c hc hcid
        exact hna (hcid ▸ List.mem_map_of_mem ClientRec.id hc)
      have hfilter : getOtherClients (selfRec :: t) selfRec.id now = t := by
        rw [getOtherClients, List.filter_cons]
        have hpa : (decide (selfRec.id ≠ selfRec.id) &&
            decide (now - 20000 ≤ selfRec.lastSeen)) = false := by simp
        rw [hpa, if_neg Bool.false_ne_true, List.filter_eq_self]
        intro c hc
        simp only [Bool.and_eq_true, decide_eq_true_eq, ne_eq]
        exact ⟨hids c hc, hf c (List.mem_cons_of_mem selfRec hc)⟩
      rw [hfilter]
      exact List.perm_append_singleton selfRec t
    · have haid : a.id ≠ selfRec.id := by
        intro h
        exact hna (h ▸ List.mem_map_of_mem ClientRec.id hmt)
      have hfilter : getOtherClients (a :: t) selfRec.id now =
          a :: getOtherClients t selfRec.id now := by
        rw [getOtherClients, List.filter_cons]
        have hpa : (decide (a.id ≠ selfRec.id) && decide (now - 20000 ≤ a.lastSeen)) = true := by
          simp only [Bool.and_eq_true, decide_eq_true_eq, ne_eq]
          exact ⟨haid, hf a (List.mem_cons_self a t)⟩
        rw [hpa, if_pos rfl]
        rfl
      rw [hfilter, List.cons_append]
      exact (ih selfRec now (fun c hc => hf c (List.mem_cons_of_mem a hc)) hnt hmt).cons a

/-- C7 counterexample: the empty client list is vacuously sorted, duplicate
free and fresh — "already compacted" in the claim's sense — yet the
compaction step does not return it unchanged: it appends the local record. -/
theorem claim_C7_counterexample :
    ([] : List ClientRec).Sorted recLe ∧
    (([] : List ClientRec).map ClientRec.id).Nodup ∧
    compactStep [] ⟨"b", 0, "b", [], []⟩ 0 ≠ [] := by
  refine ⟨List.sorted_nil, List.nodup_nil, ?_⟩
  decide

/-- C7 (amended): the compaction step is the identity on every client list
that is already compacted and contains the local client's current record:
sorted by id, no duplicate ids, no record older than the freshness window,
and the local record among its entries. (Without the local record the step
inserts it, so the list does change.) -/
theorem claim_C7 (l : List ClientRec) (selfRec : ClientRec) (now : Int)
    (hs : l.Sorted recLe) (hn : (l.map ClientRec.id).Nodup)
    (hf : ∀ c ∈ l, now - 20000 ≤ c.lastSeen) (hm : selfRec ∈ l) :
    compactStep l selfRec now = l := by
  have hperm : List.Perm (compactStep l selfRec now) l :=
    (List.perm_insertionSort recLe _).trans (compact_input_perm l selfRec now hf hn hm)
  have hsorted1 : (compactStep l selfRec now).Sorted recLe :=
    List.sorted_insertionSort recLe _
  have hn1 : ((compactStep l selfRec now).map ClientRec.id).Nodup :=
    ((hperm.map ClientRec.id).nodup_iff).2 hn
  exact List.eq_of_perm_of_sorted hperm
    (sorted_recLt_of_sorted_nodup hsorted1 hn1)
    (sorted_recLt_of_sorted_nodup hs hn)

/-- C7 witness: a two-record compacted list containing the local record is
left unchanged by the compaction step. -/
theorem claim_C7_witness :
    compactStep [⟨"b", 5, "b", [], []⟩, ⟨"x", 7, "x", [], []⟩] ⟨"b", 5, "b", [], []⟩ 0 =
      [⟨"b", 5, "b", [], []⟩, ⟨"x", 7, "x", [], []⟩] :=
  claim_C7 [⟨"b", 5, "b", [], []⟩, ⟨"x", 7, "x", [], []⟩] ⟨"b", 5, "b", [], []⟩ 0
    (by decide) (by decide) (by decide) (by decide)

/-- C6 counterexample: with two distinct fresh input records sharing the id
`"x"`, the written client list keeps both — compaction only deduplicates the
local client's id, so the claimed "no two records with the same id" fails
for general input lists. -/
theorem claim_C6_counterexample :
    ¬ ((compactStep [⟨"x", 0, "x", [], []⟩, ⟨"x", 0, "y", [], []⟩]
          (updateClientState ⟨"b", 0, "b", [], []⟩ {} 0) 0).map ClientRec.id).Nodup := by
  decide

/-- C6 (amended): for every input client list and current time, the written
client list is sorted by id, contains the local client's own record stamped
at write time, contains no record with the local id other than that stamped
record, and contains no other record whose `lastSeen` is older than the 20 s
freshness window. (Duplicates among two distinct non-local ids are not
removed, so the original "no two records with the same id" holds only for
the local id.) -/
theorem claim_C6 (clients : List ClientRec) (selfRec : ClientRec) (now : Int) :
    (compactStep clients (updateClientState selfRec {} now) now).Sorted recLe ∧
    updateClientState selfRec {} now ∈ compactStep clients (updateClientState selfRec {} now) now ∧
    (∀ c ∈ compactStep clients (updateClientState selfRec {} now) now, c.id = selfRec.id →
      c = updateClientState selfRec {} now) ∧
    (∀ c ∈ compactStep clients (updateClientState selfRec {} now) now, c.id ≠ selfRec.id →
      now - 20000 ≤ c.lastSeen) := by
  refine ⟨List.sorted_insertionSort recLe _, ?_, ?_, ?_⟩
  · rw [compactStep, List.mem_insertionSort]
    exact List.mem_append_right _ (List.mem_singleton_self _)
  · intro c hc hcid
    rw [compactStep, List.mem_insertionSort, List.mem_append] at hc
    rcases hc with hc | hc
    · exact absurd hcid (mem_getOtherClients.1 hc).2.1
    · exact List.mem_singleton.1 hc
  · intro c hc hcid
    rw [compactStep, List.mem_insertionSort, List.mem_append] at hc
    rcases hc with hc | hc
    · exact (mem_getOtherClients.1 hc).2.2
    · exact absurd (congrArg ClientRec.id (List.mem_singleton.1 hc)) hcid

/-- C6 witness: over the one-record input list, the stamped local record is
in the written list and the surviving record `"x"` is within the freshness
window. -/
theorem claim_C6_witness :
    updateClientState ⟨"b", 0, "b", [], []⟩ {} 5 ∈
      compactStep [⟨"x", 0, "x", [], []⟩] (updateClientState ⟨"b", 0, "b", [], []⟩ {} 5) 5 ∧
    (5 : Int) - 20000 ≤ (⟨"x", 0, "x", [], []⟩ : ClientRec).lastSeen :=
  ⟨(claim_C6 [⟨"x", 0, "x", [], []⟩] ⟨"b", 0, "b", [], []⟩ 5).2.1,
   (claim_C6 [⟨"x", 0, "x", [], []⟩] ⟨"b", 0, "b", [], []⟩ 5).2.2.2 ⟨"x", 0, "x", [], []⟩
     (by decide) (by decide)⟩

end FormaMultiplayer
